import Mathlib

/-!
Verification of the per-device worker of `Greg-Lim/vllm`
(`src/vllm/worker/worker.py`).

The worker's step logic is shallowly embedded: Python lists become `List Nat`,
Python dicts become association lists in insertion order, fallible operations
(list indexing, dict lookup, `assert`, `raise`) are modelled with `Except`.
Machine integers never overflow in the embedded paths (Python ints are
unbounded), so `Nat`/`Int`/`ℚ` are used directly.
-/

set_option maxHeartbeats 1000000

deriving instance DecidableEq for Except

namespace VllmWorker

/-- Modelled from the spec: `SequenceData` lives outside the provided source
(`vllm/sequence.py` is not under `src/`); the spec describes it as the
per-sequence record of all token ids produced so far, how many are newly
in-flight this step, and whether the sequence is still consuming a prompt or
emitting tokens.  Only the fields and accessors the worker reads are modelled:
`tokenIds` (`get_token_ids`), `runningInflightTokens`
(`running_inflight_tokens`, the in-flight tokens actually run this step),
`inflightLength` (`inflight_length`), and `generating` (`is_generating()`). -/
structure SequenceData where
  tokenIds : List Nat
  runningInflightTokens : Nat
  inflightLength : Nat
  generating : Bool
  deriving DecidableEq

/-- `SequenceData.get_token_ids()`. -/
def SequenceData.getTokenIds (sd : SequenceData) : List Nat :=
  sd.tokenIds

/-- `SequenceData.get_len()`. -/
def SequenceData.getLen (sd : SequenceData) : Nat :=
  sd.tokenIds.length

/-- `SequenceData.is_generating()`. -/
def SequenceData.isGenerating (sd : SequenceData) : Bool :=
  sd.generating

/-- Modelled from the spec: `SequenceGroupMetadata` lives outside the provided
source; the spec describes it as one admitted request for the step — prompt
vs. decode phase, swap-only flag, the seq-id → SequenceData map and the
seq-id → block-table map (absent during profiling).  Sampling parameters and
the request id are never inspected by the embedded code paths and are omitted.
Python dicts are association lists in insertion order (keys unique). -/
structure SequenceGroupMetadata where
  isPrompt : Bool
  onlySwap : Bool
  seqData : List (Nat × SequenceData)
  blockTables : Option (List (Nat × List Nat))
  deriving DecidableEq

/-- First-match association-list lookup: Python `d[k]` returning `none` for a
`KeyError`. -/
def lookupA {α : Type} : List (Nat × α) → Nat → Option α
  | [], _ => none
  | (k, v) :: rest, key => if k = key then some v else lookupA rest key

/-- `_pad_to_alignment(x, multiple_of)`: `x + [0] * ((-len(x)) % multiple_of)`.
For `multiple_of > 0`, Python's `(-n) % m` equals `(m - n % m) % m`. -/
def padToAlignment (x : List Nat) (multipleOf : Nat) : List Nat :=
  x ++ List.replicate ((multipleOf - x.length % multipleOf) % multipleOf) 0

/-- `_pad_to_max(x, max_len)`: `x + [0] * (max_len - len(x))`. -/
def padToMax (x : List Nat) (maxLen : Nat) : List Nat :=
  x ++ List.replicate (maxLen - x.length) 0

/-- Runtime faults of `_prepare_inputs`, in Python terms: division by zero,
`IndexError` (list subscript), `KeyError` (dict subscript), `TypeError`
(subscripting `None` block tables), and the three `assert` statements. -/
inductive PrepErr where
  | zeroDivision
  | indexError
  | keyError
  | typeError
  | assertSlidingWindow
  | assertDupSeqId (k : Nat)
  | assertSeqGroupsLen
  deriving DecidableEq

/-- Body of the prefill slot-mapping loop (worker.py lines 258-262):
`block_number = block_table[i // block_size]; block_offset = i % block_size;
slot = block_number * block_size + block_offset`. -/
def prefillSlot (blockTable : List Nat) (blockSize : Nat) (i : Nat) :
    Except PrepErr Nat :=
  if blockSize = 0 then .error .zeroDivision
  else
    match blockTable[i / blockSize]? with
    | none => .error .indexError
    | some blockNumber => .ok (blockNumber * blockSize + i % blockSize)

/-- Body of the decode slot-mapping loop (worker.py lines 312-316), textually
the same computation applied to a decode position. -/
def decodeSlot (blockTable : List Nat) (blockSize : Nat) (position : Nat) :
    Except PrepErr Nat :=
  if blockSize = 0 then .error .zeroDivision
  else
    match blockTable[position / blockSize]? with
    | none => .error .indexError
    | some blockNumber => .ok (blockNumber * blockSize + position % blockSize)

/-- Left-to-right effectful map over a list, stopping at the first fault —
the semantics of a Python `for` loop appending one result per iteration. -/
def mapExcept {α β : Type} (f : α → Except PrepErr β) :
    List α → Except PrepErr (List β)
  | [] => .ok []
  | x :: xs =>
    match f x with
    | .error e => .error e
    | .ok y =>
      match mapExcept f xs with
      | .error e => .error e
      | .ok ys => .ok (y :: ys)

/-- The prefill slot-mapping loop: `for i in range(prompt_len)` (lines 258-262). -/
def prefillSlots (blockTable : List Nat) (blockSize promptLen : Nat) :
    Except PrepErr (List Nat) :=
  mapExcept (prefillSlot blockTable blockSize) (List.range promptLen)

/-- The decode slot-mapping loop: `for position in positions` (lines 312-316). -/
def decodeSlots (blockTable : List Nat) (blockSize : Nat)
    (positions : List Nat) : Except PrepErr (List Nat) :=
  mapExcept (decodeSlot blockTable blockSize) positions

/-- Left-to-right effectful fold, stopping at the first fault — the semantics
of a Python `for` loop threading mutable accumulators. -/
def foldExcept {σ α : Type} (f : σ → α → Except PrepErr σ) :
    σ → List α → Except PrepErr σ
  | st, [] => .ok st
  | st, x :: xs =>
    match f st x with
    | .error e => .error e
    | .ok st2 => foldExcept f st2 xs

/-- The mutable accumulators of `_prepare_inputs` (worker.py lines 219-275). -/
structure PrepState where
  seqGroups : List (List Nat)
  inputTokens : List Nat
  inputPositions : List Nat
  slotMapping : List Nat
  isGeneratingNewToken : List Bool
  promptLens : List Nat
  maxContextLen : Nat
  maxNumBlocksPerSeq : Nat
  contextLens : List Nat
  generationBlockTables : List (List Nat)
  runningQueryLens : List Nat
  deriving DecidableEq

/-- Accumulators as at worker.py lines 219-275: all empty / zero. -/
def initPrepState : PrepState where
  seqGroups := []
  inputTokens := []
  inputPositions := []
  slotMapping := []
  isGeneratingNewToken := []
  promptLens := []
  maxContextLen := 0
  maxNumBlocksPerSeq := 0
  contextLens := []
  generationBlockTables := []
  runningQueryLens := []

/-- One iteration of the prefill pass (worker.py lines 228-262): skip decode
and swap-only groups; take `seq_ids[0]` (`IndexError` on an empty map), look
its data up, append the in-flight prompt tokens and 0-based positions, then
either a dummy all-zero slot mapping (profiling: no block tables) or the slots
computed by the prefill loop. -/
def prefillStep (blockSize : Nat) (st : PrepState)
    (g : SequenceGroupMetadata) : Except PrepErr PrepState :=
  if !g.isPrompt || g.onlySwap then .ok st
  else
    let st := { st with seqGroups := st.seqGroups ++ [g.seqData.map Prod.fst] }
    match g.seqData with
    | [] => .error .indexError
    | (seqId, _) :: _ =>
      match lookupA g.seqData seqId with
      | none => .error .keyError
      | some sdata =>
        let promptLen := sdata.runningInflightTokens
        let promptTokens := sdata.getTokenIds.take promptLen
        let st := { st with
          promptLens := st.promptLens ++ [promptLen]
          isGeneratingNewToken :=
            st.isGeneratingNewToken ++ [sdata.isGenerating]
          inputTokens := st.inputTokens ++ promptTokens
          inputPositions := st.inputPositions ++ List.range promptTokens.length }
        match g.blockTables with
        | none =>
          .ok { st with
            slotMapping := st.slotMapping ++ List.replicate promptLen 0 }
        | some bts =>
          match lookupA bts seqId with
          | none => .error .keyError
          | some blockTable =>
            match prefillSlots blockTable blockSize promptLen with
            | .error e => .error e
            | .ok slots => .ok { st with slotMapping := st.slotMapping ++ slots }

/-- One inner iteration of the decode pass (worker.py lines 285-324), for one
sequence of a decode group, in source order: extend tokens with the in-flight
slice, record query length and generation flag, build `hists`/`positions`,
apply the sliding-window clamp to `hists` only, record context length and
positions, subscript the block tables (`TypeError` when `None`, `KeyError`
when the id is missing), take `hists[-1]` (`IndexError` when empty), run the
decode slot loop, then `assert self.sliding_window is None`, then append the
generation block table. -/
def decodeSeqStep (blockSize : Nat) (slidingWindow : Option Nat)
    (g : SequenceGroupMetadata) (st : PrepState) (entry : Nat × SequenceData) :
    Except PrepErr PrepState :=
  let seqId := entry.1
  let sdata := entry.2
  let qsToForward := sdata.runningInflightTokens
  let startIdx := sdata.getLen - sdata.inflightLength
  let newTokens := (sdata.getTokenIds.drop startIdx).take qsToForward
  let lastTokenCtxLen := startIdx + qsToForward
  let hists0 := (List.range qsToForward).map
    (fun i => i + lastTokenCtxLen - qsToForward + 1)
  let positions := hists0.map (fun h => h - 1)
  let hists :=
    match slidingWindow with
    | none => hists0
    | some w => hists0.map (fun l => min l w)
  let st := { st with
    inputTokens := st.inputTokens ++ newTokens
    runningQueryLens := st.runningQueryLens ++ [qsToForward]
    isGeneratingNewToken := st.isGeneratingNewToken ++ [sdata.isGenerating]
    contextLens := st.contextLens ++ [lastTokenCtxLen]
    inputPositions := st.inputPositions ++ positions }
  match g.blockTables with
  | none => .error .typeError
  | some bts =>
    match lookupA bts seqId with
    | none => .error .keyError
    | some blockTable =>
      match hists.getLast? with
      | none => .error .indexError
      | some lastHist =>
        let st := { st with
          maxContextLen := max st.maxContextLen lastHist
          maxNumBlocksPerSeq := max st.maxNumBlocksPerSeq blockTable.length }
        match decodeSlots blockTable blockSize positions with
        | .error e => .error e
        | .ok slots =>
          match slidingWindow with
          | some _ => .error .assertSlidingWindow
          | none =>
            .ok { st with
              slotMapping := st.slotMapping ++ slots
              generationBlockTables :=
                st.generationBlockTables ++ [blockTable] }

/-- One iteration of the decode pass (worker.py lines 277-324): skip prompt
and swap-only groups, record the group's seq ids, then process each sequence. -/
def decodeGroupStep (blockSize : Nat) (slidingWindow : Option Nat)
    (st : PrepState) (g : SequenceGroupMetadata) : Except PrepErr PrepState :=
  if g.isPrompt || g.onlySwap then .ok st
  else
    let st := { st with seqGroups := st.seqGroups ++ [g.seqData.map Prod.fst] }
    foldExcept (decodeSeqStep blockSize slidingWindow g) st g.seqData

/-- The `seq_data` dict construction (worker.py lines 353-359): skip swap-only
groups; for each key of the group assert it is not already present, then merge
the group's map. -/
def buildSeqData (acc : List (Nat × SequenceData)) :
    List SequenceGroupMetadata → Except PrepErr (List (Nat × SequenceData))
  | [] => .ok acc
  | g :: gs =>
    if g.onlySwap then buildSeqData acc gs
    else
      match g.seqData.find? (fun kv => decide (kv.1 ∈ acc.map Prod.fst)) with
      | some kv => .error (.assertDupSeqId kv.1)
      | none => buildSeqData (acc ++ g.seqData) gs

/-- The fields of the `InputMetadata` built at worker.py lines 378-390 that
the worker computes itself, together with the padded flat token and position
arrays returned alongside it. -/
structure Batch where
  inputTokens : List Nat
  inputPositions : List Nat
  slotMapping : List Nat
  contextLens : List Nat
  maxContextLen : Nat
  blockTables : List (List Nat)
  runningQueryLens : List Nat
  promptLens : List Nat
  seqGroups : List (List Nat)
  seqData : List (Nat × SequenceData)
  isGeneratingNewToken : List Bool
  slidingWindow : Option Nat
  deriving DecidableEq

/-- Assemble the returned batch (worker.py lines 329-330, 345-348, 378-392). -/
def mkBatch (slidingWindow : Option Nat) (st : PrepState)
    (sd : List (Nat × SequenceData)) : Batch where
  inputTokens := padToAlignment st.inputTokens 8
  inputPositions := padToAlignment st.inputPositions 8
  slotMapping := st.slotMapping
  contextLens := st.contextLens
  maxContextLen := st.maxContextLen
  blockTables :=
    st.generationBlockTables.map (fun bt => padToMax bt st.maxNumBlocksPerSeq)
  runningQueryLens := st.runningQueryLens
  promptLens := st.promptLens
  seqGroups := st.seqGroups
  seqData := sd
  isGeneratingNewToken := st.isGeneratingNewToken
  slidingWindow := slidingWindow

/-- `Worker._prepare_inputs` (worker.py lines 213-392).  `ok none` is the
`(None, None, None)` empty-batch return (empty admitted list at line 217-218,
or no input tokens at lines 325-326); `error` is a raised Python exception.
The DeepSpeed ragged-kernel staging (lines 361-375) only writes external GPU
buffers and is not part of the returned batch; the final
`assert len(is_generating_new_token) == len(seq_groups)` (line 377) is
modelled. -/
def prepareInputs (blockSize : Nat) (slidingWindow : Option Nat)
    (gs : List SequenceGroupMetadata) : Except PrepErr (Option Batch) :=
  if gs.isEmpty then .ok none
  else
    match foldExcept (prefillStep blockSize) initPrepState gs with
    | .error e => .error e
    | .ok st1 =>
      match foldExcept (decodeGroupStep blockSize slidingWindow) st1 gs with
      | .error e => .error e
      | .ok st2 =>
        if st2.inputTokens.isEmpty then .ok none
        else
          match buildSeqData [] gs with
          | .error e => .error e
          | .ok sd =>
            if st2.isGeneratingNewToken.length = st2.seqGroups.length then
              .ok (some (mkBatch slidingWindow st2 sd))
            else .error .assertSeqGroupsLen

/-- The synthetic prompt lengths built by `profile_num_available_blocks`
(worker.py lines 119-121): for each `group_id` in `range(max_num_seqs)`,
`seq_len = max_num_batched_tokens // max_num_seqs
          + (group_id < max_num_batched_tokens % max_num_seqs)`. -/
def profileSeqLens (maxNumBatchedTokens maxNumSeqs : Nat) : List Nat :=
  (List.range maxNumSeqs).map
    (fun groupId =>
      maxNumBatchedTokens / maxNumSeqs +
        if groupId < maxNumBatchedTokens % maxNumSeqs then 1 else 0)

/-- The block-count computation of `profile_num_available_blocks` (worker.py
lines 153-158).  `total_gpu_memory * gpu_memory_utilization - peak_memory` is
Python float arithmetic, modelled over `ℚ`; `int(q // cache_block_size)` is
the floor of the quotient, and the host-side `cpu_swap_space //
cache_block_size` is Python integer floor division (`Int.fdiv`).  Both counts
are clamped with `max(_, 0)`. -/
def profileNumAvailableBlocks (totalGpuMemory gpuMemoryUtilization peakMemory : ℚ)
    (cacheBlockSize : Nat) (cpuSwapSpace : Int) : Int × Int :=
  let numGpuBlocks : Int :=
    Int.floor ((totalGpuMemory * gpuMemoryUtilization - peakMemory) /
      (cacheBlockSize : ℚ))
  let numCpuBlocks : Int := Int.fdiv cpuSwapSpace (cacheBlockSize : Int)
  (max numGpuBlocks 0, max numCpuBlocks 0)

/-- Cache and compute operations `execute_model` issues, in issue order.
`waitCacheEvents` stands for waiting on every completion signal in
`self.cache_events`; `modelForward` is the model invocation. -/
inductive StepOp where
  | swapOut (m : List (Nat × Nat))
  | swapIn (m : List (Nat × Nat))
  | waitCacheEvents
  | modelForward
  deriving DecidableEq

/-- Faults of `execute_model`: the `copy not supported yet` `ValueError`
(worker.py line 416) or a fault propagated from `_prepare_inputs`. -/
inductive ExecErr where
  | copyNotSupported
  | prep (e : PrepErr)
  deriving DecidableEq

/-- Result of `execute_model`: the empty dict returned on a no-input step
(worker.py line 444), or the model output for the assembled batch. -/
inductive ExecOut where
  | empty
  | modelOutput (b : Batch)
  deriving DecidableEq

/-- `Worker.execute_model` (worker.py lines 394-457), returning the ordered
trace of cache/compute operations it issues together with its result.  A
non-empty `blocks_to_copy` raises before anything else (line 415-416); when
the batch is empty, swap-outs are issued before swap-ins and the completion
signals are waited on only if an operation was issued (lines 431-444);
otherwise the model is invoked with the overlapped swap sets (lines 447-456). -/
def executeModel (blockSize : Nat) (slidingWindow : Option Nat)
    (gs : List SequenceGroupMetadata)
    (blocksToSwapIn blocksToSwapOut : List (Nat × Nat))
    (blocksToCopy : List (Nat × List Nat)) :
    Except ExecErr (List StepOp × ExecOut) :=
  if !blocksToCopy.isEmpty then .error .copyNotSupported
  else
    match prepareInputs blockSize slidingWindow gs with
    | .error e => .error (.prep e)
    | .ok none =>
      let outOps : List StepOp :=
        if blocksToSwapOut.isEmpty then [] else [.swapOut blocksToSwapOut]
      let inOps : List StepOp :=
        if blocksToSwapIn.isEmpty then [] else [.swapIn blocksToSwapIn]
      let issuedCacheOp := !blocksToSwapOut.isEmpty || !blocksToSwapIn.isEmpty
      let waitOps : List StepOp := if issuedCacheOp then [.waitCacheEvents] else []
      .ok (outOps ++ inOps ++ waitOps, .empty)
    | .ok (some b) => .ok ([.modelForward], .modelOutput b)

/-- The trace of a no-input step: swap-outs, then swap-ins, then the wait on
the completion signals when any operation was issued. -/
def emptyStepTrace (blocksToSwapOut blocksToSwapIn : List (Nat × Nat)) :
    List StepOp :=
  (if blocksToSwapOut.isEmpty then [] else [.swapOut blocksToSwapOut]) ++
    (if blocksToSwapIn.isEmpty then [] else [.swapIn blocksToSwapIn]) ++
    (if !blocksToSwapOut.isEmpty || !blocksToSwapIn.isEmpty
      then [.waitCacheEvents] else [])

/-- Spec-side restatement: the in-flight token slice one decode sequence
contributes, as read at worker.py lines 287-290. -/
def seqInflightTokens (sd : SequenceData) : List Nat :=
  (sd.tokenIds.drop (sd.tokenIds.length - sd.inflightLength)).take
    sd.runningInflightTokens

/-- Spec-side restatement: the in-flight prompt tokens a group contributes to
the prefill pass — the first sequence's first `running_inflight_tokens` token
ids for a non-swap-only prompt group, nothing otherwise. -/
def groupPrefillTokens (g : SequenceGroupMetadata) : List Nat :=
  if !g.isPrompt || g.onlySwap then []
  else
    match g.seqData with
    | [] => []
    | (_, sd) :: _ => sd.tokenIds.take sd.runningInflightTokens

/-- The number of slot-mapping entries the prefill pass emits for a group:
`prompt_len` per non-swap-only prompt group (dummy or computed). -/
def groupPrefillSlotCount (g : SequenceGroupMetadata) : Nat :=
  if !g.isPrompt || g.onlySwap then 0
  else
    match g.seqData with
    | [] => 0
    | (_, sd) :: _ => sd.runningInflightTokens

/-- Spec-side restatement: the tokens a group contributes to the decode pass
— each sequence's in-flight slice, in map order, for a non-swap-only decode
group. -/
def groupDecodeTokens (g : SequenceGroupMetadata) : List Nat :=
  if g.isPrompt || g.onlySwap then []
  else (g.seqData.map (fun e => seqInflightTokens e.2)).flatten

/-- The number of slot-mapping entries the decode pass emits for a group: one
per position, i.e. `running_inflight_tokens` per sequence. -/
def groupDecodeSlotCount (g : SequenceGroupMetadata) : Nat :=
  if g.isPrompt || g.onlySwap then 0
  else (g.seqData.map (fun e => e.2.runningInflightTokens)).sum

/-- Spec-side restatement: the unpadded flat token stream of a step — every
prefill group's in-flight prompt tokens, in order, then every decode
sequence's in-flight tokens, in order. -/
def specTokens (gs : List SequenceGroupMetadata) : List Nat :=
  (gs.map groupPrefillTokens).flatten ++ (gs.map groupDecodeTokens).flatten

/-- Data invariant of `SequenceData` (spec section 3): the tokens run this
step are among the in-flight tokens, which are among the produced tokens. -/
def SequenceData.wf (sd : SequenceData) : Prop :=
  sd.runningInflightTokens ≤ sd.inflightLength ∧
    sd.inflightLength ≤ sd.tokenIds.length

instance (sd : SequenceData) : Decidable sd.wf := by
  unfold SequenceData.wf; infer_instance

/-- A group all of whose sequences satisfy the data invariant. -/
def wfGroup (g : SequenceGroupMetadata) : Prop :=
  ∀ e ∈ g.seqData, e.2.wf

instance (g : SequenceGroupMetadata) : Decidable (wfGroup g) := by
  unfold wfGroup; infer_instance

/-- An admitted-request list all of whose groups satisfy the data invariant. -/
def wfGroups (gs : List SequenceGroupMetadata) : Prop :=
  ∀ g ∈ gs, wfGroup g

instance (gs : List SequenceGroupMetadata) : Decidable (wfGroups gs) := by
  unfold wfGroups; infer_instance

/-- A 5-token prompt sequence, fully in-flight. -/
def sdPromptA : SequenceData := ⟨[10, 11, 12, 13, 14], 5, 5, true⟩

/-- End-to-end scenario A of the spec: one prompt-phase group, 5 tokens,
block table `[7]` — one entry too few for token position 4 at block size 4. -/
def gScenarioA : SequenceGroupMetadata :=
  ⟨true, false, [(0, sdPromptA)], some [(0, [7])]⟩

/-- The same 5-token prompt group with a sufficient two-entry block table. -/
def gPrefillOk : SequenceGroupMetadata :=
  ⟨true, false, [(0, sdPromptA)], some [(0, [7, 9])]⟩

/-- The batch assembled for `[gPrefillOk]` at block size 4. -/
def batchPrefillOk : Batch :=
  ⟨[10, 11, 12, 13, 14, 0, 0, 0], [0, 1, 2, 3, 4, 0, 0, 0],
    [28, 29, 30, 31, 36], [], 0, [], [], [5], [[0]], [(0, sdPromptA)],
    [true], none⟩

/-- A prompt sequence with no in-flight tokens this step. -/
def sdNoInflight : SequenceData := ⟨[], 0, 0, false⟩

/-- A second token-less sequence, distinguishable from `sdNoInflight`. -/
def sdNoInflightB : SequenceData := ⟨[], 0, 0, true⟩

/-- A non-swap-only prompt group carrying sequence id 5 and no tokens. -/
def gDupA : SequenceGroupMetadata := ⟨true, false, [(5, sdNoInflight)], none⟩

/-- A distinct non-swap-only prompt group also carrying sequence id 5. -/
def gDupB : SequenceGroupMetadata := ⟨true, false, [(5, sdNoInflightB)], none⟩

/-- A decode sequence: three produced tokens, one in-flight. -/
def sdDecode : SequenceData := ⟨[1, 2, 3], 1, 1, true⟩

/-- A decode-phase group for sequence id 7 with block table `[9]`. -/
def gDecode : SequenceGroupMetadata :=
  ⟨false, false, [(7, sdDecode)], some [(7, [9])]⟩

/-- The batch assembled for `[gPrefillOk, gDecode]` at block size 4. -/
def batchCombo : Batch :=
  ⟨[10, 11, 12, 13, 14, 3, 0, 0], [0, 1, 2, 3, 4, 2, 0, 0],
    [28, 29, 30, 31, 36, 38], [3], 3, [[9]], [1], [5], [[0], [7]],
    [(0, sdPromptA), (7, sdDecode)], [true, true], none⟩

/-- A decode-phase group for sequence id 0 with block table `[9]`. -/
def gDecode0 : SequenceGroupMetadata :=
  ⟨false, false, [(0, sdDecode)], some [(0, [9])]⟩

/-- A prefill group whose 5-token prompt spans five one-token blocks —
positions 2, 3, 4 exceed a sliding window of 2, so a clamp would change
their slots. -/
def gWindow : SequenceGroupMetadata :=
  ⟨true, false, [(0, sdPromptA)], some [(0, [10, 11, 12, 13, 14])]⟩

/-- A prompt sequence with two produced, in-flight tokens. -/
def sdMultiX : SequenceData := ⟨[21, 22], 2, 2, true⟩

/-- A prompt sequence with three produced, in-flight tokens. -/
def sdMultiY : SequenceData := ⟨[31, 32, 33], 3, 3, true⟩

/-- A prompt-phase group whose SequenceData map holds two sequences. -/
def gMulti : SequenceGroupMetadata :=
  ⟨true, false, [(1, sdMultiX), (2, sdMultiY)], some [(1, [3]), (2, [4])]⟩

/-- The accumulator state after the prefill step on `gMulti` at block size 4:
only the first sequence (id 1) contributed tokens and slots. -/
def stMulti : PrepState :=
  ⟨[[1, 2]], [21, 22], [0, 1], [12, 13], [true], [2], 0, 0, [], [], []⟩

theorem lookupA_head {α : Type} (k : Nat) (v : α) (rest : List (Nat × α)) :
    lookupA ((k, v) :: rest) k = some v := by
  simp [lookupA]

theorem mapExcept_ok_length {α β : Type} {f : α → Except PrepErr β} :
    ∀ {l : List α} {ys : List β}, mapExcept f l = .ok ys → ys.length = l.length
  | [], ys, h => by
    simp only [mapExcept] at h
    cases h
    rfl
  | x :: xs, ys, h => by
    simp only [mapExcept] at h
    rcases hfx : f x with e | y <;> rw [hfx] at h
    · cases h
    · rcases hxs : mapExcept f xs with e | ys2 <;> rw [hxs] at h
      · cases h
      · cases h
        simpa using mapExcept_ok_length hxs

theorem mapExcept_error_of_mem {α β : Type} {f : α → Except PrepErr β}
    {e : PrepErr} :
    ∀ {l : List α} {x : α}, x ∈ l → f x = .error e →
      (∀ y ∈ l, ∀ e2, f y = .error e2 → e2 = e) →
      mapExcept f l = .error e
  | [], x, hx, _, _ => absurd hx (List.not_mem_nil x)
  | y :: ys, x, hx, hfx, hall => by
    simp only [mapExcept]
    rcases hfy : f y with e2 | v
    · rw [hall y (List.mem_cons_self y ys) e2 hfy]
    · have hxy : x ∈ ys := by
        rcases List.mem_cons.mp hx with h | h
        · subst h
          rw [hfy] at hfx
          cases hfx
        · exact h
      rw [mapExcept_error_of_mem hxy hfx (fun z hz => hall z (List.mem_cons_of_mem y hz))]

theorem mapExcept_ok_of_forall {α β : Type} {f : α → Except PrepErr β} :
    ∀ {l : List α}, (∀ x ∈ l, ∃ y, f x = .ok y) →
      ∃ ys, mapExcept f l = .ok ys
  | [], _ => ⟨[], rfl⟩
  | x :: xs, h => by
    obtain ⟨y, hy⟩ := h x (List.mem_cons_self x xs)
    obtain ⟨ys, hys⟩ := mapExcept_ok_of_forall (fun z hz => h z (List.mem_cons_of_mem x hz))
    exact ⟨y :: ys, by simp only [mapExcept, hy, hys]⟩

theorem decodeSlot_eq_prefillSlot : @decodeSlot = @prefillSlot := rfl

theorem length_padToAlignment_mod (x : List Nat) :
    (padToAlignment x 8).length % 8 = 0 := by
  simp only [padToAlignment, List.length_append, List.length_replicate]
  omega

theorem length_padToAlignment (x : List Nat) :
    (padToAlignment x 8).length = x.length + (8 - x.length % 8) % 8 := by
  simp [padToAlignment]

theorem foldExcept_skip {σ α : Type} {f : σ → α → Except PrepErr σ} :
    ∀ {l : List α}, (∀ st x, x ∈ l → f st x = .ok st) →
      ∀ st, foldExcept f st l = .ok st
  | [], _, st => rfl
  | x :: xs, h, st => by
    simp only [foldExcept, h st x (List.mem_cons_self x xs)]
    exact foldExcept_skip (fun st2 z hz => h st2 z (List.mem_cons_of_mem x hz)) st

theorem length_seqInflightTokens_of_wf {sd : SequenceData} (h : sd.wf) :
    (seqInflightTokens sd).length = sd.runningInflightTokens := by
  obtain ⟨h1, h2⟩ := h
  simp only [seqInflightTokens, List.length_take, List.length_drop]
  omega

theorem prefillStep_ok_proj {bs : Nat} {st st' : PrepState}
    {g : SequenceGroupMetadata} (h : prefillStep bs st g = .ok st') :
    st'.inputTokens = st.inputTokens ++ groupPrefillTokens g ∧
    st'.slotMapping.length = st.slotMapping.length + groupPrefillSlotCount g := by
  unfold prefillStep at h
  by_cases hc : (!g.isPrompt || g.onlySwap) = true
  · rw [if_pos hc] at h
    cases h
    constructor <;> simp [groupPrefillTokens, groupPrefillSlotCount, hc]
  · rw [if_neg hc] at h
    rcases hsd : g.seqData with _ | ⟨⟨k, sd⟩, rest⟩
    · simp only [hsd] at h
      exact Except.noConfusion h
    · simp only [hsd, lookupA_head] at h
      rcases hbt : g.blockTables with _ | bts
      · simp only [hbt] at h
        cases h
        constructor <;>
          simp [groupPrefillTokens, groupPrefillSlotCount, hc, hsd,
            SequenceData.getTokenIds]
      · simp only [hbt] at h
        rcases hlk : lookupA bts k with _ | bt
        · simp only [hlk] at h
          exact Except.noConfusion h
        · simp only [hlk] at h
          rcases hps : prefillSlots bt bs sd.runningInflightTokens
            with e | slots
          · simp only [hps] at h
            exact Except.noConfusion h
          · simp only [hps] at h
            cases h
            have hlen : slots.length = sd.runningInflightTokens := by
              simpa using mapExcept_ok_length hps
            constructor <;>
              simp [groupPrefillTokens, groupPrefillSlotCount, hc, hsd, hlen,
                SequenceData.getTokenIds]

theorem decodeSeqStep_ok_proj {bs : Nat} {sw : Option Nat}
    {g : SequenceGroupMetadata} {st st' : PrepState} {e : Nat × SequenceData}
    (h : decodeSeqStep bs sw g st e = .ok st') :
    st'.inputTokens = st.inputTokens ++ seqInflightTokens e.2 ∧
    st'.slotMapping.length = st.slotMapping.length +
      e.2.runningInflightTokens ∧
    sw = none := by
  unfold decodeSeqStep at h
  rcases hbt : g.blockTables with _ | bts
  · simp only [hbt] at h
    exact Except.noConfusion h
  · simp only [hbt] at h
    rcases hlk : lookupA bts e.1 with _ | bt
    · simp only [hlk] at h
      exact Except.noConfusion h
    · simp only [hlk] at h
      rcases hsw : sw with _ | w
      · simp only [hsw] at h
        split at h
        · exact Except.noConfusion h
        · split at h
          · exact Except.noConfusion h
          · rename_i lastHist hgl slots hds
            cases h
            have hlen : slots.length = e.2.runningInflightTokens := by
              simpa using mapExcept_ok_length hds
            refine ⟨?_, ?_, rfl⟩ <;>
              simp [seqInflightTokens, SequenceData.getTokenIds,
                SequenceData.getLen, hlen]
      · simp only [hsw] at h
        split at h
        · exact Except.noConfusion h
        · split at h
          · exact Except.noConfusion h
          · exact Except.noConfusion h

theorem foldExcept_decodeSeq_proj {bs : Nat} {sw : Option Nat}
    {g : SequenceGroupMetadata} :
    ∀ {es : List (Nat × SequenceData)} {st st' : PrepState},
      foldExcept (decodeSeqStep bs sw g) st es = .ok st' →
      st'.inputTokens =
        st.inputTokens ++ (es.map (fun e => seqInflightTokens e.2)).flatten ∧
      st'.slotMapping.length = st.slotMapping.length +
        (es.map (fun e => e.2.runningInflightTokens)).sum
  | [], st, st', h => by
    cases h
    simp
  | e :: es, st, st', h => by
    simp only [foldExcept] at h
    rcases hstep : decodeSeqStep bs sw g st e with e2 | st2
    · rw [hstep] at h
      exact Except.noConfusion h
    · rw [hstep] at h
      obtain ⟨ht, hs, _⟩ := decodeSeqStep_ok_proj hstep
      obtain ⟨ht2, hs2⟩ := foldExcept_decodeSeq_proj h
      constructor
      · rw [ht2, ht]
        simp
      · rw [hs2, hs]
        simp only [List.map_cons, List.sum_cons]
        omega

theorem decodeGroupStep_ok_proj {bs : Nat} {sw : Option Nat}
    {st st' : PrepState} {g : SequenceGroupMetadata}
    (h : decodeGroupStep bs sw st g = .ok st') :
    st'.inputTokens = st.inputTokens ++ groupDecodeTokens g ∧
    st'.slotMapping.length = st.slotMapping.length + groupDecodeSlotCount g := by
  unfold decodeGroupStep at h
  by_cases hc : (g.isPrompt || g.onlySwap) = true
  · rw [if_pos hc] at h
    cases h
    constructor <;> simp [groupDecodeTokens, groupDecodeSlotCount, hc]
  · rw [if_neg hc] at h
    obtain ⟨ht, hs⟩ := foldExcept_decodeSeq_proj h
    constructor
    · rw [ht]
      simp [groupDecodeTokens, hc]
    · rw [hs]
      simp [groupDecodeSlotCount, hc]

theorem foldExcept_prefill_proj {bs : Nat} :
    ∀ {gs : List SequenceGroupMetadata} {st st' : PrepState},
      foldExcept (prefillStep bs) st gs = .ok st' →
      st'.inputTokens = st.inputTokens ++ (gs.map groupPrefillTokens).flatten ∧
      st'.slotMapping.length = st.slotMapping.length +
        (gs.map groupPrefillSlotCount).sum
  | [], st, st', h => by
    cases h
    simp
  | g :: gs, st, st', h => by
    simp only [foldExcept] at h
    rcases hstep : prefillStep bs st g with e2 | st2
    · rw [hstep] at h
      exact Except.noConfusion h
    · rw [hstep] at h
      obtain ⟨ht, hs⟩ := prefillStep_ok_proj hstep
      obtain ⟨ht2, hs2⟩ := foldExcept_prefill_proj h
      constructor
      · rw [ht2, ht]
        simp
      · rw [hs2, hs]
        simp only [List.map_cons, List.sum_cons]
        omega

theorem foldExcept_decode_proj {bs : Nat} {sw : Option Nat} :
    ∀ {gs : List SequenceGroupMetadata} {st st' : PrepState},
      foldExcept (decodeGroupStep bs sw) st gs = .ok st' →
      st'.inputTokens = st.inputTokens ++ (gs.map groupDecodeTokens).flatten ∧
      st'.slotMapping.length = st.slotMapping.length +
        (gs.map groupDecodeSlotCount).sum
  | [], st, st', h => by
    cases h
    simp
  | g :: gs, st, st', h => by
    simp only [foldExcept] at h
    rcases hstep : decodeGroupStep bs sw st g with e2 | st2
    · rw [hstep] at h
      exact Except.noConfusion h
    · rw [hstep] at h
      obtain ⟨ht, hs⟩ := decodeGroupStep_ok_proj hstep
      obtain ⟨ht2, hs2⟩ := foldExcept_decode_proj h
      constructor
      · rw [ht2, ht]
        simp
      · rw [hs2, hs]
        simp only [List.map_cons, List.sum_cons]
        omega

theorem length_groupPrefillTokens_of_wf {g : SequenceGroupMetadata}
    (hw : wfGroup g) :
    (groupPrefillTokens g).length = groupPrefillSlotCount g := by
  unfold groupPrefillTokens groupPrefillSlotCount
  by_cases hc : (!g.isPrompt || g.onlySwap) = true
  · rw [if_pos hc, if_pos hc]
    rfl
  · rw [if_neg hc, if_neg hc]
    rcases hsd : g.seqData with _ | ⟨⟨k, sd⟩, rest⟩
    · rfl
    · have hwsd : sd.wf := hw (k, sd) (by rw [hsd]; exact List.mem_cons_self _ _)
      obtain ⟨h1, h2⟩ := hwsd
      simp only [List.length_take]
      omega

theorem length_groupDecodeTokens_of_wf {g : SequenceGroupMetadata}
    (hw : wfGroup g) :
    (groupDecodeTokens g).length = groupDecodeSlotCount g := by
  unfold groupDecodeTokens groupDecodeSlotCount
  by_cases hc : (g.isPrompt || g.onlySwap) = true
  · rw [if_pos hc, if_pos hc]
    rfl
  · rw [if_neg hc, if_neg hc]
    rw [List.length_flatten, List.map_map]
    refine congrArg List.sum (List.map_congr_left ?_)
    intro e he
    exact length_seqInflightTokens_of_wf (hw e he)

theorem length_specTokens_of_wf {gs : List SequenceGroupMetadata}
    (hw : wfGroups gs) :
    (specTokens gs).length = (gs.map groupPrefillSlotCount).sum +
      (gs.map groupDecodeSlotCount).sum := by
  unfold specTokens
  rw [List.length_append, List.length_flatten, List.length_flatten,
    List.map_map, List.map_map]
  congr 1
  · exact congrArg List.sum (List.map_congr_left
      (fun g hg => length_groupPrefillTokens_of_wf (hw g hg)))
  · exact congrArg List.sum (List.map_congr_left
      (fun g hg => length_groupDecodeTokens_of_wf (hw g hg)))

theorem prepareInputs_ok_some {bs : Nat} {sw : Option Nat}
    {gs : List SequenceGroupMetadata} {b : Batch}
    (h : prepareInputs bs sw gs = .ok (some b)) :
    ∃ st1 st2 sd,
      foldExcept (prefillStep bs) initPrepState gs = .ok st1 ∧
      foldExcept (decodeGroupStep bs sw) st1 gs = .ok st2 ∧
      st2.inputTokens.isEmpty = false ∧
      buildSeqData [] gs = .ok sd ∧
      b = mkBatch sw st2 sd := by
  unfold prepareInputs at h
  by_cases hg : gs.isEmpty = true
  · rw [if_pos hg] at h
    simp at h
  · rw [if_neg hg] at h
    rcases h1 : foldExcept (prefillStep bs) initPrepState gs with e | st1
    · simp only [h1] at h
      exact Except.noConfusion h
    · simp only [h1] at h
      rcases h2 : foldExcept (decodeGroupStep bs sw) st1 gs with e | st2
      · simp only [h2] at h
        exact Except.noConfusion h
      · simp only [h2] at h
        by_cases he : st2.inputTokens.isEmpty = true
        · rw [if_pos he] at h
          simp at h
        · rw [if_neg he] at h
          rcases h3 : buildSeqData [] gs with e | sd
          · simp only [h3] at h
            exact Except.noConfusion h
          · simp only [h3] at h
            by_cases hl :
              st2.isGeneratingNewToken.length = st2.seqGroups.length
            · rw [if_pos hl] at h
              refine ⟨st1, st2, sd, rfl, h2, ?_, rfl, ?_⟩
              · simpa using he
              · cases h
                rfl
           -- length assert failed
            · rw [if_neg hl] at h
              exact Except.noConfusion h

theorem buildSeqData_error_of_mem_acc {k : Nat}
    {g2 : SequenceGroupMetadata} (hg2 : g2.onlySwap = false)
    (hk2 : k ∈ g2.seqData.map Prod.fst) :
    ∀ (l l3 : List SequenceGroupMetadata) (acc : List (Nat × SequenceData)),
      k ∈ acc.map Prod.fst →
      ∀ sd, buildSeqData acc (l ++ g2 :: l3) ≠ .ok sd
  | [], l3, acc, hacc, sd => by
    intro h
    simp only [List.nil_append, buildSeqData, hg2, Bool.false_eq_true,
      if_false] at h
    rcases hf : g2.seqData.find?
        (fun kv => decide (kv.1 ∈ acc.map Prod.fst)) with _ | kv
    · obtain ⟨e, he, hek⟩ := List.mem_map.mp hk2
      have := List.find?_eq_none.mp hf e he
      rw [hek] at this
      simp [hacc] at this
    · rw [hf] at h
      exact Except.noConfusion h
  | g :: l, l3, acc, hacc, sd => by
    intro h
    simp only [List.cons_append, buildSeqData] at h
    by_cases hsw : g.onlySwap = true
    · rw [if_pos hsw] at h
      exact buildSeqData_error_of_mem_acc hg2 hk2 l l3 acc hacc sd h
    · rw [if_neg hsw] at h
      rcases hf : g.seqData.find?
          (fun kv => decide (kv.1 ∈ acc.map Prod.fst)) with _ | kv
      · rw [hf] at h
        have hacc2 : k ∈ (acc ++ g.seqData).map Prod.fst := by
          rw [List.map_append]
          exact List.mem_append_left _ hacc
        exact buildSeqData_error_of_mem_acc hg2 hk2 l l3 _ hacc2 sd h
      · rw [hf] at h
        exact Except.noConfusion h

theorem buildSeqData_error_of_dup {k : Nat}
    {g1 g2 : SequenceGroupMetadata}
    (hg1 : g1.onlySwap = false) (hg2 : g2.onlySwap = false)
    (hk1 : k ∈ g1.seqData.map Prod.fst) (hk2 : k ∈ g2.seqData.map Prod.fst) :
    ∀ (l1 l2 l3 : List SequenceGroupMetadata) (acc : List (Nat × SequenceData))
      (sd : List (Nat × SequenceData)),
      buildSeqData acc (l1 ++ g1 :: l2 ++ g2 :: l3) ≠ .ok sd
  | [], l2, l3, acc, sd => by
    intro h
    simp only [List.nil_append, buildSeqData, hg1, Bool.false_eq_true,
      if_false] at h
    rcases hf : g1.seqData.find?
        (fun kv => decide (kv.1 ∈ acc.map Prod.fst)) with _ | kv
    · rw [hf] at h
      have hacc : k ∈ (acc ++ g1.seqData).map Prod.fst := by
        rw [List.map_append]
        exact List.mem_append_right _ hk1
      exact buildSeqData_error_of_mem_acc hg2 hk2 l2 l3 _ hacc sd h
    · rw [hf] at h
      exact Except.noConfusion h
  | g :: l1, l2, l3, acc, sd => by
    intro h
    simp only [List.cons_append, buildSeqData] at h
    by_cases hsw : g.onlySwap = true
    · rw [if_pos hsw] at h
      exact buildSeqData_error_of_dup hg1 hg2 hk1 hk2 l1 l2 l3 acc sd h
    · rw [if_neg hsw] at h
      rcases hf : g.seqData.find?
          (fun kv => decide (kv.1 ∈ acc.map Prod.fst)) with _ | kv
      · rw [hf] at h
        exact buildSeqData_error_of_dup hg1 hg2 hk1 hk2 l1 l2 l3 _ sd h
      · rw [hf] at h
        exact Except.noConfusion h

theorem prepareInputs_all_swap {bs : Nat} {sw : Option Nat}
    (gs : List SequenceGroupMetadata) (hall : ∀ g ∈ gs, g.onlySwap = true) :
    prepareInputs bs sw gs = .ok none := by
  unfold prepareInputs
  by_cases hg : gs.isEmpty = true
  · rw [if_pos hg]
  · rw [if_neg hg]
    have h1 : foldExcept (prefillStep bs) initPrepState gs =
        .ok initPrepState := by
      refine foldExcept_skip (fun st g hmem => ?_) _
      unfold prefillStep
      rw [if_pos (by simp [hall g hmem])]
    have h2 : foldExcept (decodeGroupStep bs sw) initPrepState gs =
        .ok initPrepState := by
      refine foldExcept_skip (fun st g hmem => ?_) _
      unfold decodeGroupStep
      rw [if_pos (by simp [hall g hmem])]
    simp only [h1, h2]
    rw [if_pos (by simp [initPrepState])]

theorem sum_evenSplit (n q r : Nat) :
    ((List.range n).map (fun g => q + if g < r then 1 else 0)).sum =
      n * q + min r n := by
  induction n with
  | zero => simp
  | succ n ih =>
    rw [List.range_succ, List.map_append, List.sum_append]
    simp only [List.map_cons, List.map_nil, List.sum_cons, List.sum_nil, ih]
    rw [Nat.succ_mul]
    by_cases h : n < r <;> simp [h] <;> omega

theorem getLast?_of_ne_nil {α : Type} :
    ∀ (l : List α), l ≠ [] → ∃ a, l.getLast? = some a
  | [], h => absurd rfl h
  | [a], _ => ⟨a, rfl⟩
  | a :: b :: l, _ => by
    obtain ⟨c, hc⟩ := getLast?_of_ne_nil (b :: l) (by simp)
    exact ⟨c, by rw [List.getLast?_cons_cons, hc]⟩

theorem prefillSlot_error_eq {bt : List Nat} {bs p : Nat} (hb : ¬bs = 0)
    {e : PrepErr} (h : prefillSlot bt bs p = .error e) : e = .indexError := by
  unfold prefillSlot at h
  rw [if_neg hb] at h
  rcases hg : bt[p / bs]? with _ | bn
  · simp only [hg] at h
    cases h
    rfl
  · simp only [hg] at h
    exact Except.noConfusion h

theorem prefillSlot_error_overflow {bt : List Nat} {bs p : Nat} (hb : ¬bs = 0)
    (hover : bt.length ≤ p / bs) : prefillSlot bt bs p = .error .indexError := by
  unfold prefillSlot
  rw [if_neg hb]
  simp only [List.getElem?_eq_none hover]

/-- Claim C1: for every logical position `p`, block table `t`, and block size
`b` with `b > 0` and `p / b < t.length`, the slot computed by both the prefill
slot-mapping loop and the decode slot-mapping loop equals
`t[p / b] * b + p % b`; the universal quantifier covers in particular the
block-boundary positions `p = k*b - 1` and `p = k*b`. -/
theorem claim1_slot_formula (t : List Nat) (b p : Nat) (hb : 0 < b)
    (h : p / b < t.length) :
    prefillSlot t b p = .ok (t[p / b] * b + p % b) ∧
    decodeSlot t b p = .ok (t[p / b] * b + p % b) := by
  have hb0 : ¬b = 0 := by omega
  constructor <;>
    simp [prefillSlot, decodeSlot, hb0, List.getElem?_eq_getElem h]

/-- Witness for C1 at the block boundaries `p = 2*4 - 1` and `p = 2*4`. -/
theorem claim1_slot_formula_witness :
    prefillSlot [5, 6, 7] 4 7 = .ok 27 ∧ decodeSlot [5, 6, 7] 4 8 = .ok 28 := by
  constructor
  · exact ((claim1_slot_formula [5, 6, 7] 4 7 (by decide) (by decide)).1).trans
      (by decide)
  · exact ((claim1_slot_formula [5, 6, 7] 4 8 (by decide) (by decide)).2).trans
      (by decide)

/-- Claim C2: a position whose logical block index reaches the block-table
length makes the slot loops raise an addressing fault (`IndexError`) rather
than clamp or truncate: both the prefill loop (over `range prompt_len`) and
the decode loop (over a position list) error whenever some processed position
overflows the table; and in scenario A (one prompt group, 5 tokens, block
size 4, one-entry block table `[7]`) batch assembly raises the fault when it
reaches token position 4. -/
theorem claim2_addressing_fault :
    (∀ (bt : List Nat) (bs n : Nat), 0 < bs →
      (∃ p, p < n ∧ bt.length ≤ p / bs) →
      prefillSlots bt bs n = .error .indexError) ∧
    (∀ (bt : List Nat) (bs : Nat) (ps : List Nat), 0 < bs →
      (∃ p ∈ ps, bt.length ≤ p / bs) →
      decodeSlots bt bs ps = .error .indexError) ∧
    prepareInputs 4 none [gScenarioA] = .error .indexError := by
  refine ⟨?_, ?_, by decide⟩
  · rintro bt bs n hbs ⟨p, hpn, hover⟩
    have hb0 : ¬bs = 0 := by omega
    exact mapExcept_error_of_mem (List.mem_range.mpr hpn)
      (prefillSlot_error_overflow hb0 hover)
      (fun y _ e2 he2 => prefillSlot_error_eq hb0 he2)
  · rintro bt bs ps hbs ⟨p, hp, hover⟩
    have hb0 : ¬bs = 0 := by omega
    unfold decodeSlots
    rw [decodeSlot_eq_prefillSlot]
    exact mapExcept_error_of_mem hp
      (prefillSlot_error_overflow hb0 hover)
      (fun y _ e2 he2 => prefillSlot_error_eq hb0 he2)

/-- Witness for C2: a one-entry table with block size 4 faults on position 4
in both loops. -/
theorem claim2_addressing_fault_witness :
    prefillSlots [7] 4 5 = .error .indexError ∧
    decodeSlots [7] 4 [4] = .error .indexError :=
  ⟨claim2_addressing_fault.1 [7] 4 5 (by decide) ⟨4, by decide, by decide⟩,
   claim2_addressing_fault.2.1 [7] 4 [4] (by decide)
     ⟨4, by decide, by decide⟩⟩

/-- Claim C7: `profile_num_available_blocks` never returns a negative count
for either pool: when the measured peak exceeds the utilization budget the
device count is exactly 0 (not negative), and the host count is
`max(0, ⌊cpu_swap_space / cache_block_size⌋)`. -/
theorem claim7_nonneg_blocks (total util peak : ℚ) (cbs : Nat) (swap : Int)
    (hc : 0 < cbs) :
    0 ≤ (profileNumAvailableBlocks total util peak cbs swap).1 ∧
    0 ≤ (profileNumAvailableBlocks total util peak cbs swap).2 ∧
    (total * util < peak →
      (profileNumAvailableBlocks total util peak cbs swap).1 = 0) ∧
    (profileNumAvailableBlocks total util peak cbs swap).2 =
      max (Int.fdiv swap (cbs : Int)) 0 := by
  refine ⟨le_max_right _ _, le_max_right _ _, ?_, rfl⟩
  intro hpeak
  have hcq : (0 : ℚ) < (cbs : ℚ) := by exact_mod_cast hc
  have hq : (total * util - peak) / (cbs : ℚ) ≤ 0 :=
    le_of_lt (div_neg_of_neg_of_pos (by linarith) hcq)
  have hf : Int.floor ((total * util - peak) / (cbs : ℚ)) ≤ 0 :=
    Int.floor_nonpos hq
  simpa [profileNumAvailableBlocks] using max_eq_right hf

/-- Witness for C7: budget 50 < peak 60 gives 0 device blocks; 20 bytes of
swap at 7 bytes per block give 2 host blocks. -/
theorem claim7_nonneg_blocks_witness :
    (profileNumAvailableBlocks 100 (1/2) 60 7 20).1 = 0 ∧
    (profileNumAvailableBlocks 100 (1/2) 60 7 20).2 = 2 := by
  have h := claim7_nonneg_blocks 100 (1/2) 60 7 20 (by decide)
  refine ⟨h.2.2.1 (by norm_num), ?_⟩
  rw [h.2.2.2]
  decide

/-- Claim C8: the profiler builds exactly `max_num_seqs` synthetic prompt
lengths that sum to exactly `max_num_batched_tokens`, with the remainder
distributed to the first sequences so that any two lengths differ by at most
one token; scenario C (`max_num_seqs = 4`, `max_num_batched_tokens = 10`)
yields `[3, 3, 2, 2]`. -/
theorem claim8_profile_lengths :
    (∀ t s, 0 < s →
      (profileSeqLens t s).length = s ∧
      (profileSeqLens t s).sum = t ∧
      ∀ a ∈ profileSeqLens t s, ∀ b ∈ profileSeqLens t s, a ≤ b + 1) ∧
    profileSeqLens 10 4 = [3, 3, 2, 2] := by
  refine ⟨fun t s hs => ⟨by simp [profileSeqLens], ?_, ?_⟩, by decide⟩
  · rw [profileSeqLens, sum_evenSplit,
      min_eq_left (le_of_lt (Nat.mod_lt t hs))]
    exact Nat.div_add_mod t s
  · intro a ha b hb
    simp only [profileSeqLens, List.mem_map, List.mem_range] at ha hb
    obtain ⟨i, hi, rfl⟩ := ha
    obtain ⟨j, hj, rfl⟩ := hb
    by_cases h1 : i < t % s <;> by_cases h2 : j < t % s <;>
      simp [h1, h2]
    all_goals omega

/-- Witness for C8 at scenario C's parameters. -/
theorem claim8_profile_lengths_witness :
    (profileSeqLens 10 4).length = 4 ∧ (profileSeqLens 10 4).sum = 10 :=
  ⟨(claim8_profile_lengths.1 10 4 (by decide)).1,
   (claim8_profile_lengths.1 10 4 (by decide)).2.1⟩

/-- Claim C3 counterexample: sequence id 5 occurs in two distinct
non-swap-only prompt groups, yet because neither group contributes an input
token, assembly returns the empty batch at the `if not input_tokens` early
return (worker.py line 325) before the duplicate-id check (line 358) runs —
no contract-violation error is raised. -/
theorem claim3_counterexample :
    gDupA.onlySwap = false ∧ gDupB.onlySwap = false ∧ gDupA ≠ gDupB ∧
    gDupA.seqData.map Prod.fst = [5] ∧ gDupB.seqData.map Prod.fst = [5] ∧
    prepareInputs 4 none [gDupA, gDupB] = .ok none := by decide

/-- Claim C3 amended: a sequence id occurring in two distinct non-swap-only
groups is never silently merged: batch assembly never returns a non-empty
batch for such a list — either the duplicate-id assertion (or an earlier
fault) raises, or no input token was collected and the empty batch is
returned before the duplicate check runs. -/
theorem claim3_amended (bs : Nat) (sw : Option Nat)
    (l1 l2 l3 : List SequenceGroupMetadata) (g1 g2 : SequenceGroupMetadata)
    (k : Nat) (b : Batch)
    (hg1 : g1.onlySwap = false) (hg2 : g2.onlySwap = false)
    (hk1 : k ∈ g1.seqData.map Prod.fst) (hk2 : k ∈ g2.seqData.map Prod.fst) :
    prepareInputs bs sw (l1 ++ g1 :: l2 ++ g2 :: l3) ≠ .ok (some b) := by
  intro h
  obtain ⟨st1, st2, sd, _, _, _, h3, _⟩ := prepareInputs_ok_some h
  exact buildSeqData_error_of_dup hg1 hg2 hk1 hk2 l1 l2 l3 [] sd h3

/-- Witness for the amended C3: two prompt groups both owning sequence id 0
can never produce a non-empty batch. -/
theorem claim3_amended_witness :
    gPrefillOk.onlySwap = false ∧ gWindow.onlySwap = false ∧
    (0 : Nat) ∈ gPrefillOk.seqData.map Prod.fst ∧
    (0 : Nat) ∈ gWindow.seqData.map Prod.fst ∧
    prepareInputs 4 none ([] ++ gPrefillOk :: [] ++ gWindow :: []) ≠
      .ok (some batchPrefillOk) :=
  ⟨rfl, rfl, by decide, by decide,
   claim3_amended 4 none [] [] [] gPrefillOk gWindow 0 batchPrefillOk rfl rfl
     (by decide) (by decide)⟩

/-- Claim C4: every non-empty assembled batch has token and position arrays
whose lengths are multiples of 8, and the token array is exactly the
concatenation of every prefill group's in-flight prompt tokens followed by
every decode sequence's in-flight tokens, extended by zero-valued filler. -/
theorem claim4_padding (bs : Nat) (sw : Option Nat)
    (gs : List SequenceGroupMetadata) (b : Batch)
    (h : prepareInputs bs sw gs = .ok (some b)) :
    b.inputTokens.length % 8 = 0 ∧
    b.inputPositions.length % 8 = 0 ∧
    b.inputTokens = specTokens gs ++
      List.replicate ((8 - (specTokens gs).length % 8) % 8) 0 := by
  obtain ⟨st1, st2, sd, h1, h2, hne, h3, hb⟩ := prepareInputs_ok_some h
  have ht1 : st1.inputTokens = (gs.map groupPrefillTokens).flatten := by
    simpa [initPrepState] using (foldExcept_prefill_proj h1).1
  have ht2 : st2.inputTokens = specTokens gs := by
    rw [(foldExcept_decode_proj h2).1, ht1, specTokens]
  subst hb
  refine ⟨?_, ?_, ?_⟩
  · exact length_padToAlignment_mod st2.inputTokens
  · exact length_padToAlignment_mod st2.inputPositions
  · show padToAlignment st2.inputTokens 8 = _
    rw [ht2]
    rfl

/-- Witness for C4 on a concrete 5-token prefill batch padded to 8. -/
theorem claim4_padding_witness :
    prepareInputs 4 none [gPrefillOk] = .ok (some batchPrefillOk) ∧
    batchPrefillOk.inputTokens.length % 8 = 0 ∧
    batchPrefillOk.inputPositions.length % 8 = 0 ∧
    batchPrefillOk.inputTokens = specTokens [gPrefillOk] ++
      List.replicate ((8 - (specTokens [gPrefillOk]).length % 8) % 8) 0 :=
  ⟨by decide, claim4_padding 4 none [gPrefillOk] batchPrefillOk (by decide)⟩

/-- Claim C6 counterexample: a prompt-phase, non-swap-only group whose
SequenceData map holds two sequences is assembled with no error at all: the
returned batch holds exactly the first sequence's tokens (21, 22) and their
slots, the second sequence being silently ignored — no fatal configuration
error is raised. -/
theorem claim6_counterexample :
    gMulti.isPrompt = true ∧ gMulti.onlySwap = false ∧
    gMulti.seqData.length = 2 ∧
    (prepareInputs 4 none [gMulti]).map
        (Option.map (fun b => (b.inputTokens, b.slotMapping))) =
      .ok (some ([21, 22, 0, 0, 0, 0, 0, 0], [12, 13])) := by decide

/-- Claim C6 amended: a prompt-phase, non-swap-only group with more than one
sequence raises no configuration error for the extra sequences; whenever its
prefill step succeeds it appends exactly the first sequence's in-flight
prompt tokens, ignoring every later sequence in the map. -/
theorem claim6_amended (bs : Nat) (st st' : PrepState)
    (g : SequenceGroupMetadata) (k : Nat) (sd : SequenceData)
    (rest : List (Nat × SequenceData))
    (hp : g.isPrompt = true) (hs : g.onlySwap = false)
    (hsd : g.seqData = (k, sd) :: rest)
    (h : prefillStep bs st g = .ok st') :
    st'.inputTokens = st.inputTokens ++
      sd.tokenIds.take sd.runningInflightTokens := by
  have hg : groupPrefillTokens g = sd.tokenIds.take sd.runningInflightTokens := by
    unfold groupPrefillTokens
    rw [if_neg (by simp [hp, hs])]
    simp only [hsd]
  rw [(prefillStep_ok_proj h).1, hg]

/-- Witness for the amended C6: the two-sequence group `gMulti` is processed
without error and contributes only sequence 1's tokens. -/
theorem claim6_amended_witness :
    prefillStep 4 initPrepState gMulti = .ok stMulti ∧
    stMulti.inputTokens = initPrepState.inputTokens ++
      sdMultiX.tokenIds.take sdMultiX.runningInflightTokens :=
  ⟨by decide,
   claim6_amended 4 initPrepState stMulti gMulti 1 sdMultiX [(2, sdMultiY)]
     rfl rfl rfl (by decide)⟩

/-- Claim C9: on a step whose admitted-request list yields no input tokens
and with no copy requests, `execute_model` issues the pending swap-outs, then
the pending swap-ins, in that order, waits on the completion signals when any
operation was issued, and returns the empty result without invoking the
model; an admitted list that is empty or contains only swap-only groups
always yields such an empty batch. -/
theorem claim9_empty_step :
    (∀ (bs : Nat) (sw : Option Nat) (gs : List SequenceGroupMetadata)
      (si so : List (Nat × Nat)),
      prepareInputs bs sw gs = .ok none →
      executeModel bs sw gs si so [] = .ok (emptyStepTrace so si, .empty) ∧
      StepOp.modelForward ∉ emptyStepTrace so si) ∧
    (∀ (bs : Nat) (sw : Option Nat) (gs : List SequenceGroupMetadata),
      (∀ g ∈ gs, g.onlySwap = true) → prepareInputs bs sw gs = .ok none) := by
  constructor
  · intro bs sw gs si so h
    constructor
    · unfold executeModel
      rw [if_neg (by simp)]
      simp only [h]
      rfl
    · unfold emptyStepTrace
      by_cases hso : so.isEmpty = true <;> by_cases hsi : si.isEmpty = true <;>
        simp [hso, hsi]
  · exact fun bs sw gs hall => prepareInputs_all_swap gs hall

/-- Witness for C9: an empty admitted list with pending swaps issues
swap-out, swap-in, then the wait, and returns the empty result. -/
theorem claim9_empty_step_witness :
    executeModel 4 none [] [(1, 2)] [(3, 4)] [] =
      .ok ([.swapOut [(3, 4)], .swapIn [(1, 2)], .waitCacheEvents], .empty) := by
  have h := (claim9_empty_step.1 4 none [] [(1, 2)] [(3, 4)] rfl).1
  rw [h]
  rfl

/-- Claim C10 (implicit): the slot mapping carries exactly one entry per
unpadded input token: under the SequenceData length invariants its length
equals the pre-padding token count, while the token array is padded up to a
multiple of 8 — so whenever the raw count is not a multiple of 8 the slot
mapping is strictly shorter than the padded token array. -/
theorem claim10_slot_mapping (bs : Nat) (sw : Option Nat)
    (gs : List SequenceGroupMetadata) (b : Batch)
    (hw : wfGroups gs) (h : prepareInputs bs sw gs = .ok (some b)) :
    b.slotMapping.length = (specTokens gs).length ∧
    b.inputTokens.length = (specTokens gs).length +
      (8 - (specTokens gs).length % 8) % 8 ∧
    ((specTokens gs).length % 8 ≠ 0 →
      b.slotMapping.length ≠ b.inputTokens.length) := by
  obtain ⟨st1, st2, sd, h1, h2, hne, h3, hb⟩ := prepareInputs_ok_some h
  have ht1 : st1.inputTokens = (gs.map groupPrefillTokens).flatten := by
    simpa [initPrepState] using (foldExcept_prefill_proj h1).1
  have ht2 : st2.inputTokens = specTokens gs := by
    rw [(foldExcept_decode_proj h2).1, ht1, specTokens]
  have hs1 := (foldExcept_prefill_proj h1).2
  have hs2 := (foldExcept_decode_proj h2).2
  have hslot : st2.slotMapping.length = (specTokens gs).length := by
    rw [length_specTokens_of_wf hw, hs2, hs1]
    simp [initPrepState]
  subst hb
  refine ⟨hslot, ?_, ?_⟩
  · show (padToAlignment st2.inputTokens 8).length = _
    rw [length_padToAlignment, ht2]
  · intro hmod
    show st2.slotMapping.length ≠ (padToAlignment st2.inputTokens 8).length
    rw [hslot, length_padToAlignment, ht2]
    omega

/-- Witness for C10: the mixed prefill-and-decode batch has 6 slot-mapping
entries for its 6 raw tokens while the token array is padded to 8. -/
theorem claim10_slot_mapping_witness :
    prepareInputs 4 none [gPrefillOk, gDecode] = .ok (some batchCombo) ∧
    batchCombo.slotMapping.length = (specTokens [gPrefillOk, gDecode]).length ∧
    batchCombo.slotMapping.length ≠ batchCombo.inputTokens.length :=
  ⟨by decide,
   (claim10_slot_mapping 4 none [gPrefillOk, gDecode] batchCombo (by decide)
     (by decide)).1,
   (claim10_slot_mapping 4 none [gPrefillOk, gDecode] batchCombo (by decide)
     (by decide)).2.2 (by decide)⟩

theorem getLast?_ne_none {α : Type} (l : List α) (h : l ≠ []) :
    l.getLast? ≠ none := by
  intro hn
  obtain ⟨a, ha⟩ := getLast?_of_ne_nil l h
  rw [ha] at hn
  exact Option.noConfusion hn

/-- Claim C5 counterexample: with a sliding window of 2 configured, the
prefill pass computes unclamped slots: a 5-token prompt over one-token blocks
`[10, 11, 12, 13, 14]` maps to slots `[10, 11, 12, 13, 14]` and not the
`[10, 11, 11, 11, 11]` a history clamp `min(history, window)` would yield —
so the clamp is not applied to prefill-phase slot addressing (it only appears
in the decode pass, where it feeds `max_context_len`). -/
theorem claim5_counterexample :
    (prepareInputs 1 (some 2) [gWindow]).map (Option.map Batch.slotMapping) =
      .ok (some [10, 11, 12, 13, 14]) ∧
    ([10, 11, 12, 13, 14] : List Nat) ≠ [10, 11, 11, 11, 11] := by decide

/-- Claim C5 amended: when a sliding window is configured, no clamp is
applied to prefill-phase slot addressing (the slot mapping of a
prefill-or-swap-only step is identical to the one computed with no window),
and the decode pass asserts that no sliding-window sequences are present —
the assertion failing whenever a sliding window is set and a decode-phase
group with at least one in-flight token and a sufficient block table is
processed. -/
theorem claim5_window_asymmetry :
    (∀ (bs w : Nat) (gs : List SequenceGroupMetadata),
      (∀ g ∈ gs, g.isPrompt = true ∨ g.onlySwap = true) →
      (prepareInputs bs (some w) gs).map (Option.map Batch.slotMapping) =
        (prepareInputs bs none gs).map (Option.map Batch.slotMapping)) ∧
    (∀ (bs w : Nat) (g : SequenceGroupMetadata) (k : Nat)
      (sd : SequenceData) (bts : List (Nat × List Nat)) (bt : List Nat),
      g.isPrompt = false → g.onlySwap = false →
      g.seqData = [(k, sd)] → g.blockTables = some bts →
      lookupA bts k = some bt → 0 < bs → 1 ≤ sd.runningInflightTokens →
      (sd.tokenIds.length - sd.inflightLength + sd.runningInflightTokens - 1)
          / bs < bt.length →
      prepareInputs bs (some w) [g] = .error .assertSlidingWindow) := by
  constructor
  · intro bs w gs hall
    unfold prepareInputs
    by_cases hg : gs.isEmpty = true
    · rw [if_pos hg, if_pos hg]
    · rw [if_neg hg, if_neg hg]
      have hskip : ∀ (sw2 : Option Nat) (st : PrepState),
          foldExcept (decodeGroupStep bs sw2) st gs = .ok st := by
        intro sw2 st
        refine foldExcept_skip (fun st2 g hmem => ?_) st
        unfold decodeGroupStep
        rcases hall g hmem with hcase | hcase <;> rw [if_pos (by simp [hcase])]
      rcases h1 : foldExcept (prefillStep bs) initPrepState gs with e | st1
      · simp only [h1]
      · simp only [h1, hskip (some w), hskip none]
        by_cases he : st1.inputTokens.isEmpty = true
        · rw [if_pos he, if_pos he]
        · rw [if_neg he, if_neg he]
          rcases h3 : buildSeqData [] gs with e | sd
          · simp only [h3]
          · simp only [h3]
            by_cases hl :
              st1.isGeneratingNewToken.length = st1.seqGroups.length
            · rw [if_pos hl, if_pos hl]
              rfl
            · rw [if_neg hl, if_neg hl]
  · intro bs w g k sd bts bt hp hs hsd hbt hlk hbs hq hcov
    have hseq : ∀ st0 : PrepState,
        decodeSeqStep bs (some w) g st0 (k, sd) = .error .assertSlidingWindow := by
      intro st0
      rcases hres : decodeSeqStep bs (some w) g st0 (k, sd) with e | stR
      · unfold decodeSeqStep at hres
        simp only [hbt, hlk] at hres
        split at hres
        · rename_i hnone
          exfalso
          refine getLast?_ne_none _ ?_ hnone
          simp only [ne_eq, List.map_eq_nil_iff, List.range_eq_nil]
          omega
        · split at hres
          · rename_i e2 hds
            exfalso
            have hforall : ∀ p ∈ (((List.range sd.runningInflightTokens).map
                (fun i => i + (sd.getLen - sd.inflightLength +
                  sd.runningInflightTokens) - sd.runningInflightTokens + 1)).map
                  (fun h => h - 1)),
                ∃ y, decodeSlot bt bs p = .ok y := by
              intro p hp2
              simp only [List.mem_map, List.mem_range] at hp2
              obtain ⟨h0, ⟨i, hi, rfl⟩, rfl⟩ := hp2
              have hple : i + (sd.getLen - sd.inflightLength +
                  sd.runningInflightTokens) - sd.runningInflightTokens + 1 - 1 ≤
                  sd.tokenIds.length - sd.inflightLength +
                    sd.runningInflightTokens - 1 := by
                unfold SequenceData.getLen
                omega
              have hlt : (i + (sd.getLen - sd.inflightLength +
                  sd.runningInflightTokens) - sd.runningInflightTokens + 1 - 1)
                    / bs < bt.length :=
                lt_of_le_of_lt (Nat.div_le_div_right hple) hcov
              refine ⟨bt[(i + (sd.getLen - sd.inflightLength +
                  sd.runningInflightTokens) - sd.runningInflightTokens + 1 - 1)
                    / bs] * bs +
                (i + (sd.getLen - sd.inflightLength +
                  sd.runningInflightTokens) - sd.runningInflightTokens + 1 - 1)
                    % bs, ?_⟩
              unfold decodeSlot
              rw [if_neg (by omega)]
              simp only [List.getElem?_eq_getElem hlt]
            obtain ⟨ys, hys⟩ := mapExcept_ok_of_forall hforall
            rw [decodeSlots] at hds
            rw [hys] at hds
            exact Except.noConfusion hds
          · cases hres
            rfl
      · exact absurd (decodeSeqStep_ok_proj hres).2.2 (by simp)
    unfold prepareInputs
    rw [if_neg (by simp)]
    have h1 : foldExcept (prefillStep bs) initPrepState [g] =
        .ok initPrepState := by
      have hstep : prefillStep bs initPrepState g = .ok initPrepState := by
        unfold prefillStep
        rw [if_pos (by simp [hp])]
      simp only [foldExcept, hstep]
    simp only [h1]
    have h2 : foldExcept (decodeGroupStep bs (some w)) initPrepState [g] =
        .error .assertSlidingWindow := by
      have hstep : decodeGroupStep bs (some w) initPrepState g =
          .error .assertSlidingWindow := by
        unfold decodeGroupStep
        rw [if_neg (by simp [hp, hs])]
        rw [hsd]
        simp only [foldExcept, hseq]
      simp only [foldExcept, hstep]
    simp only [h2]

/-- Witness for the amended C5: the prefill-only step's slot mapping is
unchanged by a window of 2, and a decode group under a window of 2 trips the
`sliding window not considered yet` assertion. -/
theorem claim5_window_asymmetry_witness :
    (prepareInputs 4 (some 2) [gPrefillOk]).map (Option.map Batch.slotMapping) =
      (prepareInputs 4 none [gPrefillOk]).map (Option.map Batch.slotMapping) ∧
    prepareInputs 4 (some 2) [gDecode0] = .error .assertSlidingWindow :=
  ⟨claim5_window_asymmetry.1 4 2 [gPrefillOk] (by decide),
   claim5_window_asymmetry.2 4 2 gDecode0 0 sdDecode [(0, [9])] [9] rfl rfl
     rfl rfl (by decide) (by decide) (by decide) (by decide)⟩

end VllmWorker
